import Mathlib

/-!
Verification of the cost-optimization tracker engine
(`CostOptimizationDataPull.py`) against its design specification.

The Python module is shallowly embedded: pandas dataframes become
label-keyed association lists (`DataFrame := List (Nat × TrackerRecord)`),
`datetime.date` becomes a calendar-date structure with lexicographic
comparison, Python floats become `ℚ`, nullable cells become `Option`,
and code paths that raise become `Option`/`Except` results.
-/

namespace CostOpt

/-- Calendar date, embedding Python `datetime.date`.  Comparison on
`datetime.date` objects is lexicographic on (year, month, day). -/
structure Date where
  year : Int
  month : Nat
  day : Nat
deriving DecidableEq, Repr

/-- Strict comparison of dates, as Python `<` on `datetime.date`. -/
def Date.lt (a b : Date) : Bool :=
  a.year < b.year ||
    (a.year == b.year &&
      (a.month < b.month || (a.month == b.month && a.day < b.day)))

/-- Non-strict comparison of dates, as Python `<=` / `>=` on `datetime.date`. -/
def Date.le (a b : Date) : Bool :=
  a.year < b.year ||
    (a.year == b.year &&
      (a.month < b.month || (a.month == b.month && a.day ≤ b.day)))

/-- Gregorian leap-year rule (as used by `datetime` / `dateutil`). -/
def isLeap (y : Int) : Bool :=
  y % 4 == 0 && (y % 100 != 0 || y % 400 == 0)

/-- Number of days in a month of a given year. -/
def daysInMonth (y : Int) (m : Nat) : Nat :=
  if m == 2 then (if isLeap y then 29 else 28)
  else if m == 4 || m == 6 || m == 9 || m == 11 then 30
  else 31

/-- `d - relativedelta(years=n)`: calendar-year subtraction.  `dateutil`
replaces the year and clamps the day into the target month (Feb 29 of a
leap year maps to Feb 28 two years earlier). -/
def subYears (d : Date) (n : Nat) : Date :=
  { year := d.year - n
    month := d.month
    day := min d.day (daysInMonth (d.year - n) d.month) }

/-- The day after `d` (`d + timedelta(days=1)`). -/
def nextDay (d : Date) : Date :=
  if d.day < daysInMonth d.year d.month then
    { d with day := d.day + 1 }
  else if d.month < 12 then
    { year := d.year, month := d.month + 1, day := 1 }
  else
    { year := d.year + 1, month := 1, day := 1 }

/-- The day before `d` (`d - timedelta(days=1)`). -/
def prevDay (d : Date) : Date :=
  if 1 < d.day then
    { d with day := d.day - 1 }
  else if 1 < d.month then
    { year := d.year, month := d.month - 1, day := daysInMonth d.year (d.month - 1) }
  else
    { year := d.year - 1, month := 12, day := 31 }

/-- The canonical 13-column `TrackerRecord` schema (`DF_TYPE_DICT`).
String-typed cells are nullable in pandas, hence `Option String`;
date cells are `Option Date` (NaT/None when absent); the savings amount
is the float column, embedded as `ℚ`.  `residType` is the
"Resource ID + Type" composite display column. -/
structure TrackerRecord where
  resourceId : Option String
  recommendationId : Option String
  dateOfSavings : Option Date
  finOpsStatus : Option String
  finOpsLastModified : Option Date
  comments : Option String
  account : Option String
  estimatedMonthlySavings : ℚ
  savingsType : Option String
  costCenter : Option String
  serviceGroup : Option String
  optimizationExemption : Option String
  residType : Option String
deriving DecidableEq, Repr

/-- A pandas dataframe of tracker records: rows keyed by integer label.
Persisted frames are written with `reset_index(drop=True)`, so labels are
contiguous `0..n-1` on load; labels survive `drop` unchanged. -/
abbrev DataFrame := List (Nat × TrackerRecord)

/-- `df.loc[i]` read: first row with label `i`, if any. -/
def dfGet (df : DataFrame) (i : Nat) : Option TrackerRecord :=
  (df.find? (fun p => p.1 == i)).map Prod.snd

/-- `df.loc[i] = r`: replace the row(s) labelled `i`, or append a new row
with label `i` when absent (pandas label assignment enlarges). -/
def dfSet (df : DataFrame) (i : Nat) (r : TrackerRecord) : DataFrame :=
  if df.any (fun p => p.1 == i) then
    df.map (fun p => if p.1 == i then (i, r) else p)
  else
    df ++ [(i, r)]

/-- `df.drop([i])`: remove the row(s) labelled `i`. -/
def dfDrop (df : DataFrame) (i : Nat) : DataFrame :=
  df.filter (fun p => p.1 != i)

/-- `len(df)`: the row count. -/
def dfLen (df : DataFrame) : Nat := df.length

/-- In-place cell update `df.loc[i, col] = v`, for a row that is present. -/
def dfModify (df : DataFrame) (i : Nat) (f : TrackerRecord → TrackerRecord) : DataFrame :=
  df.map (fun p => if p.1 == i then (p.1, f p.2) else p)

/-- `calcost_ebs(vtype, iops, throughput, size)`.  `iops` and `throughput`
arrive from `volume.get(...)` and may be absent (`None`).  Python raises
`ValueError` for a non-positive size, and `TypeError` when a branch
compares or multiplies an absent `iops`/`throughput` with a number
(`None > 3000` etc.); both are embedded as `Except.error`. -/
def calcost_ebs (vtype : String) (iops throughput : Option Int) (size : Int) :
    Except String ℚ :=
  if size ≤ 0 then .error "Size must be a positive integer."
  else if vtype == "gp2" then .ok (0.10 * (size : ℚ))
  else if vtype == "gp3" then
    match iops with
    | none => .error "TypeError"
    | some i =>
      let cost : ℚ :=
        0.08 * (size : ℚ) + (if 3000 < i then ((i : ℚ) - 3000) * 0.005 else 0)
      match throughput with
      | none => .error "TypeError"
      | some t => .ok (cost + (if 125 < t then ((t : ℚ) - 125) * 0.04 else 0))
  else if vtype == "st1" then .ok (0.045 * (size : ℚ))
  else if vtype == "sc1" then .ok (0.015 * (size : ℚ))
  else if vtype == "io1" then
    match iops with
    | none => .error "TypeError"
    | some i => .ok (0.125 * (size : ℚ) + 0.065 * (i : ℚ))
  else if vtype == "io2" then
    match iops with
    | none => .error "TypeError"
    | some i =>
      .ok (0.125 * (size : ℚ) +
        (if 64000 < i then
          32000 * 0.065 + 32000 * 0.046 + ((i : ℚ) - 64000) * 0.032
        else if 32000 < i then
          32000 * 0.065 + ((i : ℚ) - 32000) * 0.046
        else (i : ℚ) * 0.065))
  else if vtype == "standard" then .ok (0.05 * (size : ℚ))
  else .ok 1000000

/-- The pre-split cleanup `df.replace("nan", None).replace("NaN", None)`:
a cell holding the literal string `"nan"` or `"NaN"` is normalized to an
absent value. -/
def replaceNan (s : Option String) : Option String :=
  match s with
  | some v => if v == "nan" || v == "NaN" then none else some v
  | none => none

/-- The cleanup applied to every string cell of a row. -/
def replaceNanRec (r : TrackerRecord) : TrackerRecord :=
  { r with
    resourceId := replaceNan r.resourceId
    recommendationId := replaceNan r.recommendationId
    finOpsStatus := replaceNan r.finOpsStatus
    comments := replaceNan r.comments
    account := replaceNan r.account
    savingsType := replaceNan r.savingsType
    costCenter := replaceNan r.costCenter
    serviceGroup := replaceNan r.serviceGroup
    optimizationExemption := replaceNan r.optimizationExemption
    residType := replaceNan r.residType }

/-- Python `str.lower()` on one character: the statuses compared by the
code are ASCII, where `.lower()` shifts the letters A-Z by 32. -/
def lowerChar (c : Char) : Char :=
  if 65 ≤ c.toNat && c.toNat ≤ 90 then Char.ofNat (c.toNat + 32) else c

/-- Python `str.lower()` (ASCII). -/
def pyLower (s : String) : String := ⟨s.data.map lowerChar⟩

/-- Row test of `split_inprogress_complete`:
`status.lower() in {"complete", "exempt"}` on a present status. -/
def isCompleteExempt (r : TrackerRecord) : Bool :=
  match r.finOpsStatus with
  | some s => pyLower s == "complete" || pyLower s == "exempt"
  | none => false

/-- The row loop of `split_inprogress_complete`: appends each row to `cdf`
when its lower-cased status is "complete"/"exempt", else to `idf`.
`.lower()` on an absent status raises `AttributeError`, hence `none`. -/
def splitRows (rows idf cdf : List TrackerRecord) :
    Option (List TrackerRecord × List TrackerRecord) :=
  match rows with
  | [] => some (idf, cdf)
  | r :: rest =>
    match r.finOpsStatus with
    | none => none
    | some s =>
      if pyLower s == "complete" || pyLower s == "exempt" then
        splitRows rest idf (cdf ++ [r])
      else
        splitRows rest (idf ++ [r]) cdf

/-- `split_inprogress_complete(df)`: cleans the `"nan"`/`"NaN"` literals,
then partitions the rows by status into (in-progress, complete). -/
def split_inprogress_complete (df : List TrackerRecord) :
    Option (List TrackerRecord × List TrackerRecord) :=
  splitRows (df.map replaceNanRec) [] []

/-- The terminal/no-op status set of `import_status`. -/
def terminalStatuses : List String :=
  ["needs research", "complete", "completed", "archived", "archive"]

/-- An aggregated (normalized) finding, as produced by `parse_findings`.
Its sanitize pass replaces every `None` by `""`, so all string fields are
plain strings; `finOpsLastModified` is the processing date. -/
structure Agg where
  resourceId : String
  recommendationId : String
  finOpsStatus : String
  finOpsLastModified : Date
  comments : String
  account : String
  name : String
  estimatedMonthlySavings : ℚ
  savingsType : String
  costCenter : String
  serviceGroup : String
  optimizationExemption : String
deriving DecidableEq, Repr

/-- The effective status of a tracker row in `import_status`: an absent
`FinOpsStatus` is first rewritten to `"Needs Research"`. -/
def effStatus (r : TrackerRecord) : String :=
  r.finOpsStatus.getD "Needs Research"

/-- The match test of `import_status`'s inner loop:
`agg["ResourceId"] == resid and agg["Savings Type"] == stype`; a Python
comparison of a string with `None` is `False`. -/
def matchesAgg (r : TrackerRecord) (resid : String) (a : Agg) : Bool :=
  a.resourceId == resid &&
    (match r.savingsType with
     | some t => a.savingsType == t
     | none => false)

/-- One iteration of `import_status` over a merged tracker row: when the
row has a resource id and its effective status, lower-cased, is not in the
terminal set, the status is copied onto every matching aggregated
finding. -/
def importStep (aggs : List Agg) (row : TrackerRecord) : List Agg :=
  match row.resourceId with
  | none => aggs
  | some resid =>
    let status := effStatus row
    if pyLower status ∈ terminalStatuses then aggs
    else
      aggs.map (fun a =>
        if matchesAgg row resid a then { a with finOpsStatus := status }
        else a)

/-- `import_status(aggregation)`: walks the concatenation of the
in-progress and exempt snapshots, applying `importStep` for each row. -/
def
import_status (aggregation : List Agg) (tracker extracker : List TrackerRecord) :
    List Agg :=
  (tracker ++ extracker).foldl importStep aggregation

/-- A merged tracker row is actionable when it has a ResourceId and its
effective status, lower-cased, is outside the terminal set — exactly the
rows whose status `import_status` propagates. -/
def actionable (r : TrackerRecord) : Bool :=
  r.resourceId.isSome && !(decide (pyLower (effStatus r) ∈ terminalStatuses))

/-- The (ResourceId, Savings Type) match between a tracker row and an
aggregated finding, as tested by `import_status`'s inner loop. -/
def matchKey (r : TrackerRecord) (a : Agg) : Bool :=
  match r.resourceId with
  | some resid => matchesAgg r resid a
  | none => false

/-- The effect of one merged tracker row on one aggregated finding. -/
def stepElem (row : TrackerRecord) (a : Agg) : Agg :=
  if actionable row && matchKey row a then { a with finOpsStatus := effStatus row }
  else a

/-- A freshly-pulled finding for ResourceId "vol-1" / "Unattached EBS"
with the pulled default status. -/
def freshAgg : Agg :=
  { resourceId := "vol-1"
    recommendationId := "rec-1"
    finOpsStatus := "Needs Research"
    finOpsLastModified := ⟨2026, 10, 12⟩
    comments := ""
    account := "acct"
    name := ""
    estimatedMonthlySavings := 1
    savingsType := "Unattached EBS"
    costCenter := ""
    serviceGroup := ""
    optimizationExemption := "" }

/-- `FinOpsLastModified = date.today()` stamp applied to an edited row. -/
def stampToday (today : Date) (r : TrackerRecord) : TrackerRecord :=
  { r with finOpsLastModified := some today }

/-- The first loop of `modify_inprogress_tracker` /
`modify_complete_tracker`: after the column deltas are merged into the
session frame (the `tracker` argument is the frame with deltas already
applied), each edited row is stamped with today's date. -/
def stampEdits (tracker : DataFrame) (idxs : List Nat) (today : Date) : DataFrame :=
  idxs.foldl (fun t i => dfModify t i (stampToday today)) tracker

/-- One iteration of the second loop of `modify_inprogress_tracker` over an
edited index: copy the session row into the persisted in-progress frame,
then move it to Complete (stamping `DateOfSavings = today`) when its
lower-cased status is "complete", to Exempt when "exempt", or drop it when
the status is exactly `"DeleteMe"`.  A missing row or an absent status
(`.lower()` on `None`) raises, hence `none`. -/
def inprogressStep (today : Date)
    (st : DataFrame × DataFrame × DataFrame × DataFrame) (i : Nat) :
    Option (DataFrame × DataFrame × DataFrame × DataFrame) :=
  let (tracker, s3i, s3c, s3ex) := st
  match dfGet tracker i with
  | none => none
  | some row =>
    let s3i := dfSet s3i i row
    match row.finOpsStatus with
    | none => none
    | some s =>
      if pyLower s == "complete" then
        let row := { row with dateOfSavings := some today }
        let tracker := dfModify tracker i (fun r => { r with dateOfSavings := some today })
        some (tracker, dfDrop s3i i, dfSet s3c (dfLen s3c) row, s3ex)
      else if pyLower s == "exempt" then
        some (tracker, dfDrop s3i i, s3c, dfSet s3ex (dfLen s3ex) row)
      else if s == "DeleteMe" then
        some (tracker, dfDrop s3i i, s3c, s3ex)
      else
        some (tracker, s3i, s3c, s3ex)

/-- Sequencing of a per-index loop body that may raise: the first raising
iteration aborts the whole loop. -/
def runSteps {σ : Type} (step : σ → Nat → Option σ) (st : σ) :
    List Nat → Option σ
  | [] => some st
  | i :: rest =>
    match step st i with
    | none => none
    | some st' => runSteps step st' rest

/-- `modify_inprogress_tracker`: stamps the edited rows, then applies each
edit to the persisted frames.  The session frame `tracker` already holds
the merged column deltas; `s3i`, `s3c`, `s3ex` are the persisted
InProgress / Complete / Exempt partitions.  Returns the updated
(session, InProgress, Complete, Exempt) frames; the Python function
returns `None` — it computes no list of unwritable indexes and performs
no last-modified conflict check. -/
def modify_inprogress_tracker (tracker : DataFrame) (idxs : List Nat)
    (s3i s3c s3ex : DataFrame) (today : Date) :
    Option (DataFrame × DataFrame × DataFrame × DataFrame) :=
  runSteps (inprogressStep today) (stampEdits tracker idxs today, s3i, s3c, s3ex) idxs

/-- One iteration of the second loop of `modify_complete_tracker` (and of
its verbatim twin `modify_exempt_tracker`): stamp the session row with
today, then write it into the persisted frame only when the persisted row
has no `FinOpsLastModified` or the stamped date is `>=` it; otherwise
record the index as unwritable.  A row whose status is exactly
`"DeleteMe"` is then dropped regardless.  A missing label raises
(`KeyError`), hence `none`.  (The source's `strptime` branch converts a
string-typed `DateOfSavings` cell; dates are already typed here.) -/
def completeStep (today : Date) (st : DataFrame × DataFrame × List Nat) (i : Nat) :
    Option (DataFrame × DataFrame × List Nat) :=
  let (ct, s3c, unwritten) := st
  let ct := dfModify ct i (stampToday today)
  match dfGet ct i with
  | none => none
  | some row =>
    match dfGet s3c i with
    | none => none
    | some prow =>
      let (s3c, unwritten) :=
        match prow.finOpsLastModified with
        | none => (dfSet s3c i row, unwritten)
        | some pd => if Date.le pd today then (dfSet s3c i row, unwritten)
                     else (s3c, unwritten ++ [i])
      if row.finOpsStatus == some "DeleteMe" then
        some (ct, dfDrop s3c i, unwritten)
      else
        some (ct, s3c, unwritten)

/-- `modify_complete_tracker`: applies each edited index against the
persisted Complete frame under the last-modified conflict rule and returns
the list of unwritable indexes. -/
def modify_complete_tracker (ctracker : DataFrame) (idxs : List Nat)
    (s3c : DataFrame) (today : Date) :
    Option (DataFrame × DataFrame × List Nat) :=
  runSteps (completeStep today) (ctracker, s3c, []) idxs

/-- `modify_exempt_tracker`: identical algorithm over the Exempt frame. -/
def modify_exempt_tracker (extracker : DataFrame) (idxs : List Nat)
    (s3e : DataFrame) (today : Date) :
    Option (DataFrame × DataFrame × List Nat) :=
  runSteps (completeStep today) (extracker, s3e, []) idxs

/-- The archiving test of `archive_findings`:
`DateOfSavings is not None and DateOfSavings < curd - relativedelta(years=+2)`. -/
def shouldArchive (curd : Date) (r : TrackerRecord) : Bool :=
  match r.dateOfSavings with
  | some d => Date.lt d (subYears curd 2)
  | none => false

/-- `archive_findings`: iterates the Complete frame and drops every row
whose `DateOfSavings` is present and older than two calendar years before
`curd`. -/
def archive_findings (s3c : DataFrame) (curd : Date) : DataFrame :=
  s3c.foldl (fun acc p => if shouldArchive curd p.2 then dfDrop acc p.1 else acc) s3c

/-- A Python value fed to `float(...)`: either numeric (coerces) or not
(raises `TypeError`/`ValueError`). -/
inductive PyNum where
  | numeric (q : ℚ)
  | nonNumeric
deriving DecidableEq, Repr

/-- `float(value)`. -/
def pyFloat : PyNum → Except String ℚ
  | .numeric q => .ok q
  | .nonNumeric => .error "could not convert to float"

/-- A raw finding record handed to `parse_findings`.  The source probes the
keys `resourceId`, `ResourceId`, `RecommendationId`, `accountId`,
`Account`, `Name`, `estimatedMonthlySavings`, `actionType` and the three
tag-derived columns with `.get(...)`. -/
structure RawFinding where
  resourceId : Option String
  ResourceId : Option String
  RecommendationId : String
  accountId : Option String
  Account : Option String
  Name : Option String
  estimatedMonthlySavings : PyNum
  actionType : Option String
  costCenter : Option String
  serviceGroup : Option String
  optimizationExemption : Option String
deriving DecidableEq, Repr

/-- Resource-id resolution of `parse_findings`: `resourceId`, else
`ResourceId`, else the finding's `RecommendationId`. -/
def resolveResid (item : RawFinding) : String :=
  match item.resourceId with
  | some r => r
  | none =>
    match item.ResourceId with
    | some r => r
    | none => item.RecommendationId

/-- The record built by one `parse_findings` iteration for `item`, given
the already-coerced savings amount.  Defaults: status "Needs Research",
last-modified today, comments "".  The sanitize pass maps `None` to `""`.
(The rightsizing Comments enrichment calls the external EC2 instance-type
lookup collaborator and only alters the `comments` string; it is omitted
here.) -/
def mkAgg (item : RawFinding) (today : Date) (sav : ℚ) : Agg :=
  { resourceId := resolveResid item
    recommendationId := item.RecommendationId
    finOpsStatus := "Needs Research"
    finOpsLastModified := today
    comments := ""
    account :=
      match item.accountId with
      | some a => a
      | none => item.Account.getD ""
    name := item.Name.getD ""
    estimatedMonthlySavings := sav
    savingsType := item.actionType.getD ""
    costCenter := item.costCenter.getD ""
    serviceGroup := item.serviceGroup.getD ""
    optimizationExemption := item.optimizationExemption.getD "" }

/-- `parse_findings(aggs, itemlist)` with an empty initial accumulator:
processes the items in order, coercing each savings amount with
`float(...)`; the first non-numeric amount raises out of the loop and the
whole call returns nothing. -/
def parse_findings (itemlist : List RawFinding) (today : Date) :
    Except String (List Agg) :=
  match itemlist with
  | [] => .ok []
  | item :: rest =>
    match pyFloat item.estimatedMonthlySavings with
    | .error e => .error e
    | .ok sav =>
      match parse_findings rest today with
      | .error e => .error e
      | .ok aggs => .ok (mkAgg item today sav :: aggs)

/-- `recid_hasher(value1, value2, value3)`: concatenates the string forms
of the three values with no separator and applies the SHA-256 hex digest.
The digest (an external library primitive) is abstracted as an arbitrary
function of the concatenated string. -/
def recid_hasher (digest : String → String) (value1 value2 value3 : String) :
    String :=
  digest (value1 ++ value2 ++ value3)

/-- A concrete tracker row (ResourceId "vol-1", Savings Type
"Unattached EBS") with the given status, for concrete evaluations. -/
def sampleRec (s : Option String) : TrackerRecord :=
  { resourceId := some "vol-1"
    recommendationId := some "rec-1"
    dateOfSavings := none
    finOpsStatus := s
    finOpsLastModified := none
    comments := some ""
    account := some "acct"
    estimatedMonthlySavings := 1
    savingsType := some "Unattached EBS"
    costCenter := none
    serviceGroup := none
    optimizationExemption := none
    residType := none }

/-- A persisted row whose `FinOpsLastModified` (2026-10-13) is strictly
newer than the edit date used in the concrete runs (2026-10-12). -/
def persistedRow : TrackerRecord :=
  { sampleRec (some "In Progress") with finOpsLastModified := some ⟨2026, 10, 13⟩ }

/-- The user-edited version of the same row. -/
def editedRow : TrackerRecord :=
  { sampleRec (some "In Progress") with comments := some "edited" }

/-- A well-formed raw finding with numeric savings. -/
def goodItem : RawFinding :=
  { resourceId := some "vol-9"
    ResourceId := none
    RecommendationId := "rec-9"
    accountId := some "acct"
    Account := none
    Name := some "n"
    estimatedMonthlySavings := .numeric 5
    actionType := some "Unattached EBS"
    costCenter := none
    serviceGroup := none
    optimizationExemption := none }

/-- The same finding with a savings amount `float(...)` cannot coerce. -/
def badItem : RawFinding := { goodItem with estimatedMonthlySavings := .nonNumeric }

/-- C1: the spec's conflict rule claims that on every partition an edit
whose stamped `FinOpsLastModified` is strictly older than the persisted
row's is rejected and its index returned in `unwritableIndexes`.
`modify_complete_tracker` implements this, but `modify_inprogress_tracker`
— whose own docstring promises the list of conflict-rejected indexes —
performs no timestamp comparison and returns no list: the stale edit
(stamped 2026-10-12, persisted 2026-10-13) overwrites the persisted
InProgress row unconditionally, while the identical situation on the
Complete partition rejects the edit and reports index 0. -/
theorem c1_inprogress_skips_conflict_check :
    Date.lt ⟨2026, 10, 12⟩ ⟨2026, 10, 13⟩ = true ∧
    modify_inprogress_tracker [(0, editedRow)] [0] [(0, persistedRow)] [] []
        ⟨2026, 10, 12⟩ =
      some ([(0, stampToday ⟨2026, 10, 12⟩ editedRow)],
            [(0, stampToday ⟨2026, 10, 12⟩ editedRow)], [], []) ∧
    modify_complete_tracker [(0, editedRow)] [0] [(0, persistedRow)]
        ⟨2026, 10, 12⟩ =
      some ([(0, stampToday ⟨2026, 10, 12⟩ editedRow)], [(0, persistedRow)], [0]) := by
  refine ⟨by decide, rfl, rfl⟩

/-- C3 counterexample: the claim says the `DeleteMe` sentinel is compared
case-insensitively, so a row whose status is `"deleteme"` would be
removed.  In the code the deletion test is the exact comparison
`== "DeleteMe"`: the lower-case row is written into the persisted
InProgress frame and kept, while the exactly-spelled `"DeleteMe"` row is
dropped. -/
theorem c3_lowercase_deleteme_not_removed :
    modify_inprogress_tracker [(0, sampleRec (some "deleteme"))] [0]
        [(0, persistedRow)] [] [] ⟨2026, 10, 14⟩ =
      some ([(0, stampToday ⟨2026, 10, 14⟩ (sampleRec (some "deleteme")))],
            [(0, stampToday ⟨2026, 10, 14⟩ (sampleRec (some "deleteme")))],
            [], []) ∧
    modify_inprogress_tracker [(0, sampleRec (some "DeleteMe"))] [0]
        [(0, persistedRow)] [] [] ⟨2026, 10, 14⟩ =
      some ([(0, stampToday ⟨2026, 10, 14⟩ (sampleRec (some "DeleteMe")))],
            [], [], []) := by
  refine ⟨rfl, rfl⟩

/-- C7 counterexample: the claim says that for every positive size and
every combination of present or absent iops/throughput the pricing
function returns a number.  For the types that consult those parameters
the Python code compares or multiplies `None` with a number and raises
`TypeError`: gp3 with absent iops, io1 with absent iops, io2 with absent
iops, and gp3 with present iops but absent throughput all fail. -/
theorem c7_absent_iops_raises :
    calcost_ebs "gp3" none none 100 = .error "TypeError" ∧
    calcost_ebs "io1" none (some 200) 100 = .error "TypeError" ∧
    calcost_ebs "io2" none none 100 = .error "TypeError" ∧
    calcost_ebs "gp3" (some 4000) none 100 = .error "TypeError" := by
  refine ⟨rfl, rfl, rfl, rfl⟩

/-- C8 counterexample: the claim says a non-numeric savings amount leads
to only the offending finding being excluded, with the remaining findings
still normalized and returned.  In the code the `float(...)` failure
raises out of the whole loop: a list with one bad finding between two
good ones yields an error and no findings at all. -/
theorem c8_nonnumeric_loses_all_findings :
    parse_findings [goodItem, badItem, goodItem] ⟨2026, 10, 12⟩ =
      .error "could not convert to float" := rfl

/-- C4 counterexample: the claim quantifies over every dataframe of the
13-column schema, but a row whose `FinOpsStatus` is the literal string
`"nan"` is normalized to an absent value by the pre-split cleanup and the
subsequent `.lower()` raises (`AttributeError`): the split returns no
pair at all, so no partition containing that row is produced. -/
theorem c4_nan_status_crashes_split :
    split_inprogress_complete [sampleRec (some "nan")] = none := rfl

/-- C5: gp3 volumes are priced at 0.08 per GiB plus 0.005 per IOPS above
3000 plus 0.04 per MB/s of throughput above 125 — in particular
`calcost_ebs("gp3", 4000, 150, 100) = 14.0` — and io2 volumes at 0.125
per GiB plus cumulative-tiered IOPS charges: 0.065 per IOPS for the first
32000, 0.046 for the next 32000, and 0.032 for the remainder. -/
theorem c5_gp3_io2_pricing_formulas (s i t : Int) (t' : Option Int) (hs : 0 < s) :
    calcost_ebs "gp3" (some i) (some t) s =
      .ok (0.08 * (s : ℚ) + (if 3000 < i then ((i : ℚ) - 3000) * 0.005 else 0)
            + (if 125 < t then ((t : ℚ) - 125) * 0.04 else 0)) ∧
    calcost_ebs "gp3" (some 4000) (some 150) 100 = .ok 14 ∧
    calcost_ebs "io2" (some i) t' s =
      .ok (0.125 * (s : ℚ) + 0.065 * min (i : ℚ) 32000
            + 0.046 * min (max ((i : ℚ) - 32000) 0) 32000
            + 0.032 * max ((i : ℚ) - 64000) 0) := by
  refine ⟨?_, ?_, ?_⟩
  · simp [calcost_ebs, hs.not_le]
  · norm_num [calcost_ebs]
    decide
  · by_cases h64 : 64000 < i
    · have h1 : (64000 : ℚ) ≤ (i : ℚ) := by exact_mod_cast le_of_lt h64
      have hmx : ((i : ℚ) - 32000) ⊔ 0 = (i : ℚ) - 32000 := max_eq_left (by linarith)
      simp [calcost_ebs, hs.not_le, h64, hmx]
      rw [min_eq_right (by linarith), min_eq_right (by linarith),
          max_eq_left (by linarith)]
      ring
    · by_cases h32 : 32000 < i
      · have h1 : (32000 : ℚ) ≤ (i : ℚ) := by exact_mod_cast le_of_lt h32
        have h2 : (i : ℚ) ≤ 64000 := by exact_mod_cast not_lt.mp h64
        have hmx : ((i : ℚ) - 32000) ⊔ 0 = (i : ℚ) - 32000 := max_eq_left (by linarith)
        simp [calcost_ebs, hs.not_le, h64, h32, hmx]
        rw [min_eq_right (by linarith), min_eq_left (by linarith),
            max_eq_right (by linarith)]
        ring
      · have h2 : (i : ℚ) ≤ 32000 := by exact_mod_cast not_lt.mp h32
        have hmx : ((i : ℚ) - 32000) ⊔ 0 = 0 := max_eq_right (by linarith)
        simp [calcost_ebs, hs.not_le, h64, h32, hmx]
        rw [min_eq_left (by linarith), max_eq_right (by linarith)]
        ring

/-- Witness for C5 at the spec's own scenario. -/
theorem c5_gp3_io2_pricing_formulas_witness :
    (0 : Int) < 100 ∧ calcost_ebs "gp3" (some 4000) (some 150) 100 = .ok 14 :=
  ⟨by decide, (c5_gp3_io2_pricing_formulas 100 4000 150 none (by decide)).2.1⟩

/-- C7 (amended): the pricing function fails with ValueError exactly on a
non-positive size; for a positive size it returns a number if and only if
the parameters the chosen branch consults are present — gp3 needs both
iops and throughput, io1 and io2 need iops, and every other type
(including unrecognized ones, which yield the sentinel 1,000,000) succeeds
regardless of absent iops/throughput. -/
theorem c7_pricing_totality (vtype : String) (i t : Option Int) (s : Int) :
    (s ≤ 0 → calcost_ebs vtype i t s = .error "Size must be a positive integer.") ∧
    (0 < s →
      ((∃ q, calcost_ebs vtype i t s = Except.ok q) ↔
        ((vtype = "gp3" → i.isSome ∧ t.isSome) ∧
         (vtype = "io1" → i.isSome) ∧
         (vtype = "io2" → i.isSome)))) ∧
    (0 < s → vtype ≠ "gp2" → vtype ≠ "gp3" → vtype ≠ "st1" → vtype ≠ "sc1" →
      vtype ≠ "io1" → vtype ≠ "io2" → vtype ≠ "standard" →
      calcost_ebs vtype i t s = .ok 1000000) := by
  refine ⟨fun h => by simp [calcost_ebs, h], fun hs => ?_,
    fun hs h1 h2 h3 h4 h5 h6 h7 => by
      simp [calcost_ebs, hs.not_le, beq_iff_eq, h1, h2, h3, h4, h5, h6, h7]⟩
  constructor
  · rintro ⟨q, hq⟩
    refine ⟨fun hv => ?_, fun hv => ?_, fun hv => ?_⟩
    · subst hv
      rcases i with _ | iv
      · simp [calcost_ebs, hs.not_le] at hq
      · rcases t with _ | tv
        · simp [calcost_ebs, hs.not_le] at hq
        · exact ⟨rfl, rfl⟩
    · subst hv
      rcases i with _ | iv
      · simp [calcost_ebs, hs.not_le] at hq
      · rfl
    · subst hv
      rcases i with _ | iv
      · simp [calcost_ebs, hs.not_le] at hq
      · rfl
  · rintro ⟨hgp3, hio1, hio2⟩
    by_cases h1 : vtype = "gp2"
    · subst h1
      rcases hc : calcost_ebs "gp2" i t s with msg | q
      · exfalso; simp [calcost_ebs, hs.not_le] at hc
      · exact ⟨q, rfl⟩
    by_cases h2 : vtype = "gp3"
    · subst h2
      obtain ⟨hi, ht⟩ := hgp3 rfl
      rcases i with _ | iv; · simp at hi
      rcases t with _ | tv; · simp at ht
      rcases hc : calcost_ebs "gp3" (some iv) (some tv) s with msg | q
      · exfalso; simp [calcost_ebs, hs.not_le] at hc
      · exact ⟨q, rfl⟩
    by_cases h3 : vtype = "st1"
    · subst h3
      rcases hc : calcost_ebs "st1" i t s with msg | q
      · exfalso; simp [calcost_ebs, hs.not_le] at hc
      · exact ⟨q, rfl⟩
    by_cases h4 : vtype = "sc1"
    · subst h4
      rcases hc : calcost_ebs "sc1" i t s with msg | q
      · exfalso; simp [calcost_ebs, hs.not_le] at hc
      · exact ⟨q, rfl⟩
    by_cases h5 : vtype = "io1"
    · subst h5
      rcases i with _ | iv; · simp at hio1
      rcases hc : calcost_ebs "io1" (some iv) t s with msg | q
      · exfalso; simp [calcost_ebs, hs.not_le] at hc
      · exact ⟨q, rfl⟩
    by_cases h6 : vtype = "io2"
    · subst h6
      rcases i with _ | iv; · simp at hio2
      rcases hc : calcost_ebs "io2" (some iv) t s with msg | q
      · exfalso; simp [calcost_ebs, hs.not_le] at hc
      · exact ⟨q, rfl⟩
    by_cases h7 : vtype = "standard"
    · subst h7
      rcases hc : calcost_ebs "standard" i t s with msg | q
      · exfalso; simp [calcost_ebs, hs.not_le] at hc
      · exact ⟨q, rfl⟩
    · rcases hc : calcost_ebs vtype i t s with msg | q
      · exfalso
        simp [calcost_ebs, hs.not_le, beq_iff_eq, h1, h2, h3, h4, h5, h6, h7] at hc
      · exact ⟨q, rfl⟩

/-- Witness for C7's amended characterization: a non-positive size fails,
and an unrecognized type with absent iops/throughput yields the sentinel. -/
theorem c7_pricing_totality_witness :
    calcost_ebs "gp2" none none (-1) = .error "Size must be a positive integer." ∧
    calcost_ebs "weird" none none 7 = .ok 1000000 :=
  ⟨(c7_pricing_totality "gp2" none none (-1)).1 (by decide),
   (c7_pricing_totality "weird" none none 7).2.2 (by decide) (by decide)
     (by decide) (by decide) (by decide) (by decide) (by decide) (by decide)⟩

/-- C9: for a fixed type and fixed iops/throughput the monthly cost is
non-decreasing in size; for the iops-sensitive types gp3, io1 and io2 it
is non-decreasing in iops, across the gp3 3000-IOPS threshold and the io2
tier boundaries at 32000 and 64000. -/
theorem c9_cost_monotonic :
    (∀ (vtype : String) (i t : Option Int) (s₁ s₂ : Int) (c₁ c₂ : ℚ),
      s₁ ≤ s₂ →
      calcost_ebs vtype i t s₁ = .ok c₁ →
      calcost_ebs vtype i t s₂ = .ok c₂ → c₁ ≤ c₂) ∧
    (∀ (vtype : String) (t : Option Int) (s : Int) (i₁ i₂ : Int) (c₁ c₂ : ℚ),
      (vtype = "gp3" ∨ vtype = "io1" ∨ vtype = "io2") → i₁ ≤ i₂ →
      calcost_ebs vtype (some i₁) t s = .ok c₁ →
      calcost_ebs vtype (some i₂) t s = .ok c₂ → c₁ ≤ c₂) := by
  constructor
  · intro vtype i t s₁ s₂ c₁ c₂ hss h1 h2
    by_cases hs1 : s₁ ≤ 0; · simp [calcost_ebs, hs1] at h1
    by_cases hs2 : s₂ ≤ 0; · simp [calcost_ebs, hs2] at h2
    have hsq : (s₁ : ℚ) ≤ s₂ := by exact_mod_cast hss
    by_cases hv1 : vtype = "gp2"
    · subst hv1; simp [calcost_ebs, hs1, hs2] at h1 h2; subst h1; subst h2; linarith
    by_cases hv2 : vtype = "gp3"
    · subst hv2
      rcases i with _ | iv; · simp [calcost_ebs, hs1] at h1
      rcases t with _ | tv; · simp [calcost_ebs, hs1] at h1
      simp [calcost_ebs, hs1, hs2] at h1 h2; subst h1; subst h2; linarith
    by_cases hv3 : vtype = "st1"
    · subst hv3; simp [calcost_ebs, hs1, hs2] at h1 h2; subst h1; subst h2; linarith
    by_cases hv4 : vtype = "sc1"
    · subst hv4; simp [calcost_ebs, hs1, hs2] at h1 h2; subst h1; subst h2; linarith
    by_cases hv5 : vtype = "io1"
    · subst hv5
      rcases i with _ | iv; · simp [calcost_ebs, hs1] at h1
      simp [calcost_ebs, hs1, hs2] at h1 h2; subst h1; subst h2; linarith
    by_cases hv6 : vtype = "io2"
    · subst hv6
      rcases i with _ | iv; · simp [calcost_ebs, hs1] at h1
      simp [calcost_ebs, hs1, hs2] at h1 h2; subst h1; subst h2; linarith
    by_cases hv7 : vtype = "standard"
    · subst hv7; simp [calcost_ebs, hs1, hs2] at h1 h2; subst h1; subst h2; linarith
    · simp [calcost_ebs, hs1, hs2, beq_iff_eq, hv1, hv2, hv3, hv4, hv5, hv6, hv7]
        at h1 h2
      subst h1; subst h2; linarith
  · intro vtype t s i₁ i₂ c₁ c₂ hv hii h1 h2
    by_cases hs0 : s ≤ 0; · simp [calcost_ebs, hs0] at h1
    have hiq : (i₁ : ℚ) ≤ i₂ := by exact_mod_cast hii
    rcases hv with hv | hv | hv
    · subst hv
      rcases t with _ | tv; · simp [calcost_ebs, hs0] at h1
      by_cases hi1 : 3000 < i₁ <;> by_cases hi2 : 3000 < i₂ <;>
        simp [calcost_ebs, hs0, hi1, hi2] at h1 h2 <;> subst h1 <;> subst h2
      · have : (3000 : ℚ) < i₁ := by exact_mod_cast hi1
        linarith
      · omega
      · have : (3000 : ℚ) < i₂ := by exact_mod_cast hi2
        linarith
      · linarith
    · subst hv
      simp [calcost_ebs, hs0] at h1 h2; subst h1; subst h2; linarith
    · subst hv
      by_cases hi641 : 64000 < i₁ <;> by_cases hi642 : 64000 < i₂
      · have ha : (64000 : ℚ) < i₁ := by exact_mod_cast hi641
        simp [calcost_ebs, hs0, hi641, hi642] at h1 h2; subst h1; subst h2; linarith
      · omega
      · by_cases hi321 : 32000 < i₁
        · have ha : (32000 : ℚ) < i₁ := by exact_mod_cast hi321
          have hb : (i₁ : ℚ) ≤ 64000 := by exact_mod_cast not_lt.mp hi641
          simp [calcost_ebs, hs0, hi641, hi642, hi321] at h1 h2
          subst h1; subst h2; linarith
        · have hb : (i₁ : ℚ) ≤ 32000 := by exact_mod_cast not_lt.mp hi321
          simp [calcost_ebs, hs0, hi641, hi642, hi321] at h1 h2
          subst h1; subst h2; linarith
      · by_cases hi321 : 32000 < i₁ <;> by_cases hi322 : 32000 < i₂
        · have ha : (32000 : ℚ) < i₁ := by exact_mod_cast hi321
          simp [calcost_ebs, hs0, hi641, hi642, hi321, hi322] at h1 h2
          subst h1; subst h2; linarith
        · omega
        · have ha : (32000 : ℚ) < i₂ := by exact_mod_cast hi322
          have hb : (i₁ : ℚ) ≤ 32000 := by exact_mod_cast not_lt.mp hi321
          simp [calcost_ebs, hs0, hi641, hi642, hi321, hi322] at h1 h2
          subst h1; subst h2; linarith
        · simp [calcost_ebs, hs0, hi641, hi642, hi321, hi322] at h1 h2
          subst h1; subst h2; linarith

/-- Witness for C9 across the gp3 3000-IOPS threshold. -/
theorem c9_cost_monotonic_witness :
    calcost_ebs "gp3" (some 2000) (some 125) 100 = .ok 8 ∧
    calcost_ebs "gp3" (some 4000) (some 125) 100 = .ok 13 ∧ (8 : ℚ) ≤ 13 := by
  have hA : calcost_ebs "gp3" (some 2000) (some 125) 100 = .ok 8 := by
    norm_num [calcost_ebs]
    decide
  have hB : calcost_ebs "gp3" (some 4000) (some 125) 100 = .ok 13 := by
    norm_num [calcost_ebs]
    decide
  exact ⟨hA, hB,
    c9_cost_monotonic.2 "gp3" (some 125) 100 2000 4000 8 13 (Or.inl rfl)
      (by decide) hA hB⟩

/-- C10: the identity hasher concatenates the string forms of
(account, resource-id, savings) with no separator before hashing, so the
two distinct triples ("ab","c",100.0) and ("a","bc",100.0) concatenate to
the same string "abc100.0" and collide under every digest function —
deterministically, not merely with negligible probability. -/
theorem c10_hasher_concatenation_collision :
    (("ab", "c", "100.0") ≠ (("a" : String), ("bc" : String), ("100.0" : String))) ∧
    ∀ digest : String → String,
      recid_hasher digest "ab" "c" "100.0" = recid_hasher digest "a" "bc" "100.0" := by
  refine ⟨by decide, fun digest => ?_⟩
  exact congrArg digest (by decide)

/-- `matchKey` only reads the key fields of a finding, which a status
update leaves unchanged. -/
lemma matchKey_update (r : TrackerRecord) (a : Agg) (x : String) :
    matchKey r { a with finOpsStatus := x } = matchKey r a := by
  cases hr : r.resourceId <;> simp [matchKey, matchesAgg, hr]

lemma stepElem_update_collapse (row : TrackerRecord) (a : Agg) (x : String) :
    stepElem row { a with finOpsStatus := x } =
      if actionable row && matchKey row a then { a with finOpsStatus := effStatus row }
      else { a with finOpsStatus := x } := by
  unfold stepElem
  rw [matchKey_update]

lemma foldl_stepElem (a : Agg) (rows : List TrackerRecord) :
    rows.foldl (fun x row => stepElem row x) a =
      match (rows.filter (fun r => actionable r && matchKey r a)).getLast? with
      | some r => { a with finOpsStatus := effStatus r }
      | none => a := by
  induction rows using List.reverseRecOn with
  | nil => rfl
  | append_singleton l r ih =>
    rw [List.foldl_append, List.filter_append]
    simp only [List.foldl_cons, List.foldl_nil]
    by_cases hc : (actionable r && matchKey r a) = true
    · have hfr : List.filter (fun r => actionable r && matchKey r a) [r] = [r] := by
        simp [hc]
      rw [hfr, List.getLast?_concat, ih]
      cases hm : (List.filter (fun r => actionable r && matchKey r a) l).getLast? with
      | none => simp [stepElem, hc]
      | some rr => simp [stepElem_update_collapse, hc]
    · have hfr : List.filter (fun r => actionable r && matchKey r a) [r] = [] := by
        simp [hc]
      rw [hfr, List.append_nil, ih]
      cases hm : (List.filter (fun r => actionable r && matchKey r a) l).getLast? with
      | none => simp [stepElem, hc]
      | some rr => simp [stepElem_update_collapse, hc]


lemma step_eq_map (row : TrackerRecord) (aggs : List Agg) :
    importStep aggs row = aggs.map (stepElem row) := by
  unfold importStep
  cases hr : row.resourceId with
  | none =>
    have h : ∀ a, stepElem row a = a := by
      intro a
      unfold stepElem actionable
      simp [hr]
    rw [show stepElem row = id from funext h, List.map_id]
  | some resid =>
    dsimp only
    by_cases ht : pyLower (effStatus row) ∈ terminalStatuses
    · have h : ∀ a, stepElem row a = a := by
        intro a
        unfold stepElem actionable
        simp [ht]
      rw [if_pos ht, show stepElem row = id from funext h, List.map_id]
    · simp only [if_neg ht]
      apply List.map_congr_left
      intro a _
      unfold stepElem actionable matchKey
      simp [hr, ht]

lemma foldl_map_eq (rows : List TrackerRecord) :
    ∀ (l : List Agg),
      rows.foldl (fun aggs row => aggs.map (stepElem row)) l =
        l.map (fun a => rows.foldl (fun x row => stepElem row x) a) := by
  induction rows with
  | nil => intro l; simp
  | cons r rest ih =>
    intro l
    simp only [List.foldl_cons]
    rw [ih, List.map_map]
    rfl

/-- C2: reconciliation overwrites a fresh finding's FinOpsStatus with the
status of a (ResourceId, Savings Type)-matching tracker row exactly when
that row is actionable — its lower-cased status outside
{"needs research","complete","completed","archived","archive"} — taking
the last such row of the merged snapshots; a finding with no matching
actionable row keeps its pulled default.  In particular the "vol-1" /
"Unattached EBS" finding takes status "In Progress" from the matching
tracker row, and keeps its default against a "Complete" row. -/
theorem c2_import_status_carries_forward (aggs : List Agg) (tracker extracker : List TrackerRecord) :
    import_status aggs tracker extracker =
      aggs.map (fun a =>
        match ((tracker ++ extracker).filter
            (fun r => actionable r && matchKey r a)).getLast? with
        | some r => { a with finOpsStatus := effStatus r }
        | none => a) ∧
    import_status [freshAgg] [sampleRec (some "In Progress")] [] =
      [{ freshAgg with finOpsStatus := "In Progress" }] ∧
    import_status [freshAgg] [sampleRec (some "Complete")] [] = [freshAgg] := by
  refine ⟨?_, rfl, rfl⟩
  unfold import_status
  have hsteps : ∀ (rows : List TrackerRecord) (l : List Agg),
      rows.foldl importStep l =
        rows.foldl (fun aggs row => aggs.map (stepElem row)) l := by
    intro rows
    induction rows with
    | nil => intro l; rfl
    | cons r rest ih =>
      intro l
      simp only [List.foldl_cons]
      rw [step_eq_map]
      exact ih _
  rw [hsteps, foldl_map_eq]
  apply List.map_congr_left
  intro a _
  exact foldl_stepElem a _

/-- Membership after a pandas label drop. -/
lemma mem_dfDrop {df : DataFrame} {i : Nat} {x : Nat × TrackerRecord} :
    x ∈ dfDrop df i ↔ x ∈ df ∧ x.1 ≠ i := by
  simp [dfDrop, List.mem_filter]

lemma mem_foldl_drop (P : TrackerRecord → Bool) :
    ∀ (rows init : DataFrame) (x : Nat × TrackerRecord),
      (x ∈ rows.foldl (fun acc p => if P p.2 then dfDrop acc p.1 else acc) init ↔
        (x ∈ init ∧ ∀ p ∈ rows, P p.2 = true → x.1 ≠ p.1)) := by
  intro rows
  induction rows with
  | nil => intro init x; simp
  | cons p rest ih =>
    intro init x
    simp only [List.foldl_cons]
    rw [ih]
    by_cases hp : P p.2
    · simp only [hp, if_true, mem_dfDrop]
      constructor
      · rintro ⟨⟨hx, hne⟩, hrest⟩
        refine ⟨hx, ?_⟩
        intro q hq hPq
        rcases List.mem_cons.mp hq with rfl | hq'
        · exact hne
        · exact hrest q hq' hPq
      · rintro ⟨hx, hall⟩
        exact ⟨⟨hx, hall p (List.mem_cons_self p rest) hp⟩,
          fun q hq hPq => hall q (List.mem_cons_of_mem p hq) hPq⟩
    · simp only [hp, if_false]
      constructor
      · rintro ⟨hx, hrest⟩
        refine ⟨hx, ?_⟩
        intro q hq hPq
        rcases List.mem_cons.mp hq with rfl | hq'
        · exact absurd hPq (by simp [hp])
        · exact hrest q hq' hPq
      · rintro ⟨hx, hall⟩
        exact ⟨hx, fun q hq hPq => hall q (List.mem_cons_of_mem p hq) hPq⟩

lemma nodup_key_eq :
    ∀ {l : DataFrame}, (l.map Prod.fst).Nodup →
      ∀ {i : Nat} {r s : TrackerRecord}, (i, r) ∈ l → (i, s) ∈ l → r = s := by
  intro l
  induction l with
  | nil => intro _ i r s hr; simp at hr
  | cons p rest ih =>
    intro hnd i r s hr hs
    simp only [List.map_cons, List.nodup_cons] at hnd
    rcases List.mem_cons.mp hr with rfl | hr'
    · rcases List.mem_cons.mp hs with h | hs'
      · exact ((Prod.ext_iff.mp h).2).symm
      · exact absurd (List.mem_map_of_mem Prod.fst hs') (by simpa using hnd.1)
    · rcases List.mem_cons.mp hs with rfl | hs'
      · exact absurd (List.mem_map_of_mem Prod.fst hr') (by simpa using hnd.1)
      · exact ih hnd.2 hr' hs'

lemma lt_prevDay (d : Date) : Date.lt (prevDay d) d = true := by
  unfold prevDay
  split
  · simp [Date.lt]
    try omega
  · split <;> (simp [Date.lt]; try omega)

lemma not_lt_nextDay (d : Date) : Date.lt (nextDay d) d = false := by
  unfold nextDay
  split
  · simp [Date.lt]
    try omega
  · split <;> (simp [Date.lt]; try omega)


/-- C6: archiving drops exactly the Complete rows whose `DateOfSavings`
is present and strictly earlier than `curd` minus two calendar years
(`relativedelta`, not a fixed day count); rows with no `DateOfSavings`
are never dropped.  At the boundary, a date one day after the two-years-
ago date (2 years minus 1 day before now) is retained and one day before
it (2 years and 1 day before now) is archived. -/
theorem c6_archive_two_year_retention (s3c : DataFrame) (curd : Date)
    (hkeys : (s3c.map Prod.fst).Nodup) :
    (∀ (i : Nat) (r : TrackerRecord),
      ((i, r) ∈ archive_findings s3c curd ↔
        ((i, r) ∈ s3c ∧
          (r.dateOfSavings = none ∨
            ∃ d, r.dateOfSavings = some d ∧ Date.lt d (subYears curd 2) = false)))) ∧
    (∀ (now : Date) (r : TrackerRecord),
      (r.dateOfSavings = some (nextDay (subYears now 2)) →
        shouldArchive now r = false) ∧
      (r.dateOfSavings = some (prevDay (subYears now 2)) →
        shouldArchive now r = true) ∧
      (r.dateOfSavings = none → shouldArchive now r = false)) := by
  constructor
  · intro i r
    unfold archive_findings
    rw [mem_foldl_drop (shouldArchive curd) s3c s3c (i, r)]
    constructor
    · rintro ⟨hmem, hall⟩
      refine ⟨hmem, ?_⟩
      cases hd : r.dateOfSavings with
      | none => exact Or.inl rfl
      | some d =>
        refine Or.inr ⟨d, rfl, ?_⟩
        by_contra hlt
        have hlt' : Date.lt d (subYears curd 2) = true := by
          cases h : Date.lt d (subYears curd 2)
          · exact absurd h hlt
          · rfl
        have hP : shouldArchive curd r = true := by
          unfold shouldArchive; rw [hd]; exact hlt'
        exact (hall (i, r) hmem hP) rfl
    · rintro ⟨hmem, hkeep⟩
      refine ⟨hmem, ?_⟩
      rintro ⟨j, q⟩ hp hPq hij
      rcases hij
      have hqr : q = r := nodup_key_eq hkeys hp hmem
      subst hqr
      rcases hkeep with hnone | ⟨d, hd, hlt⟩
      · unfold shouldArchive at hPq
        rw [hnone] at hPq
        simp at hPq
      · unfold shouldArchive at hPq
        rw [hd] at hPq
        simp [hlt] at hPq
  · intro now r
    refine ⟨fun h => ?_, fun h => ?_, fun h => ?_⟩
    · unfold shouldArchive; rw [h]; exact not_lt_nextDay _
    · unfold shouldArchive; rw [h]; exact lt_prevDay _
    · unfold shouldArchive; rw [h]

/-- Witness for C6 at `now` = 2026-10-12 (boundary 2024-10-12):
2024-10-11 archived, 2024-10-13 retained. -/
theorem c6_archive_two_year_retention_witness :
    shouldArchive ⟨2026, 10, 12⟩
        { sampleRec (some "Complete") with
            dateOfSavings := some (prevDay (subYears ⟨2026, 10, 12⟩ 2)) } = true ∧
    shouldArchive ⟨2026, 10, 12⟩
        { sampleRec (some "Complete") with
            dateOfSavings := some (nextDay (subYears ⟨2026, 10, 12⟩ 2)) } = false :=
  ⟨((c6_archive_two_year_retention [] ⟨2026, 10, 12⟩ (by decide)).2 ⟨2026, 10, 12⟩
      { sampleRec (some "Complete") with
          dateOfSavings := some (prevDay (subYears ⟨2026, 10, 12⟩ 2)) }).2.1 rfl,
   ((c6_archive_two_year_retention [] ⟨2026, 10, 12⟩ (by decide)).2 ⟨2026, 10, 12⟩
      { sampleRec (some "Complete") with
          dateOfSavings := some (nextDay (subYears ⟨2026, 10, 12⟩ 2)) }).1 rfl⟩

/-- C8 (amended): the savings amount is coerced with `float(...)`; a
non-numeric amount raises a conversion error that propagates to the
caller and aborts the whole parse — no findings from that call are
returned.  When every amount is numeric, all findings are normalized and
returned, each carrying its coerced amount (never silently zeroed). -/
theorem c8_nonnumeric_aborts_parse (items : List RawFinding) (today : Date) :
    ((∃ it ∈ items, it.estimatedMonthlySavings = PyNum.nonNumeric) →
      parse_findings items today = .error "could not convert to float") ∧
    ((∀ it ∈ items, it.estimatedMonthlySavings ≠ PyNum.nonNumeric) →
      ∃ aggs, parse_findings items today = .ok aggs ∧
        aggs.length = items.length ∧
        ∀ (k : Nat) (hk : k < items.length) (q : ℚ),
          (items.get ⟨k, hk⟩).estimatedMonthlySavings = PyNum.numeric q →
          ∃ hk2 : k < aggs.length,
            aggs.get ⟨k, hk2⟩ = mkAgg (items.get ⟨k, hk⟩) today q) := by
  induction items with
  | nil =>
    constructor
    · rintro ⟨it, hit, _⟩
      simp at hit
    · intro _
      exact ⟨[], rfl, rfl, fun k hk => absurd hk (Nat.not_lt_zero k)⟩
  | cons item rest ih =>
    constructor
    · rintro ⟨it, hit, hbad⟩
      rcases List.mem_cons.mp hit with rfl | hit'
      · simp [parse_findings, pyFloat, hbad]
      · have herr := ih.1 ⟨it, hit', hbad⟩
        cases hph : item.estimatedMonthlySavings with
        | numeric q => simp [parse_findings, pyFloat, hph, herr]
        | nonNumeric => simp [parse_findings, pyFloat, hph]
    · intro hall
      have hhead := hall item (List.mem_cons_self _ _)
      cases hph : item.estimatedMonthlySavings with
      | nonNumeric => exact absurd hph hhead
      | numeric q =>
        obtain ⟨aggs, hok, hlen, hget⟩ :=
          ih.2 (fun it hit => hall it (List.mem_cons_of_mem _ hit))
        refine ⟨mkAgg item today q :: aggs, ?_, ?_, ?_⟩
        · simp [parse_findings, pyFloat, hph, hok]
        · simp [hlen]
        · intro k hk q' hq'
          cases k with
          | zero =>
            simp only [List.get] at hq' ⊢
            rw [hph] at hq'
            have : q' = q := (PyNum.numeric.injEq _ _ ▸ hq').symm
            subst this
            exact ⟨Nat.succ_pos _, rfl⟩
          | succ n =>
            simp only [List.get] at hq' ⊢
            obtain ⟨hk2, heq⟩ := hget n (Nat.lt_of_succ_lt_succ hk) q' hq'
            exact ⟨Nat.succ_lt_succ hk2, heq⟩

/-- Witness for C8: one bad finding after a good one loses the whole
call's output. -/
theorem c8_nonnumeric_aborts_parse_witness :
    parse_findings [goodItem, badItem] ⟨2026, 10, 12⟩ =
      .error "could not convert to float" :=
  (c8_nonnumeric_aborts_parse [goodItem, badItem] ⟨2026, 10, 12⟩).1
    ⟨badItem, by decide, rfl⟩


/-- The row loop of the split, described as two complementary filters. -/
lemma splitRows_eq :
    ∀ (rows idf cdf : List TrackerRecord),
      (∀ r ∈ rows, r.finOpsStatus.isSome) →
      splitRows rows idf cdf =
        some (idf ++ rows.filter (fun r => !(isCompleteExempt r)),
              cdf ++ rows.filter isCompleteExempt) := by
  intro rows
  induction rows with
  | nil => intro idf cdf _; simp [splitRows]
  | cons r rest ih =>
    intro idf cdf hsome
    obtain ⟨s, hs⟩ := Option.isSome_iff_exists.mp (hsome r (List.mem_cons_self _ _))
    have hrest : ∀ x ∈ rest, x.finOpsStatus.isSome :=
      fun x hx => hsome x (List.mem_cons_of_mem _ hx)
    have hce : isCompleteExempt r = (pyLower s == "complete" || pyLower s == "exempt") := by
      simp [isCompleteExempt, hs]
    by_cases hp : (pyLower s == "complete" || pyLower s == "exempt") = true
    · have : splitRows (r :: rest) idf cdf = splitRows rest idf (cdf ++ [r]) := by
        simp [splitRows, hs, hp]
      rw [this, ih _ _ hrest]
      simp [List.filter_cons, hce, hp]
    · have hp' : (pyLower s == "complete" || pyLower s == "exempt") = false :=
        Bool.not_eq_true _ ▸ (by simpa using hp)
      have : splitRows (r :: rest) idf cdf = splitRows rest (idf ++ [r]) cdf := by
        simp [splitRows, hs, hp']
      rw [this, ih _ _ hrest]
      simp [List.filter_cons, hce, hp']

/-- C4 (amended): on a dataframe whose statuses are present and are not
the literal strings "nan"/"NaN" (which the pre-split cleanup nulls,
making the subsequent `.lower()` raise), the split succeeds and is a
partition of the cleaned rows: `idf` and `cdf` are complementary filters
of `df.map replaceNanRec`, a row lands in `cdf` iff its lower-cased
status is "complete" or "exempt", each cleaned row's multiplicity is
preserved (appears in exactly one side), and the spec's 4-row scenario
splits exactly as stated. -/
theorem c4_split_partitions_after_cleanup (df : List TrackerRecord)
    (h : ∀ r ∈ df, ∃ s, r.finOpsStatus = some s ∧ s ≠ "nan" ∧ s ≠ "NaN") :
    ∃ idf cdf,
      split_inprogress_complete df = some (idf, cdf) ∧
      idf = (df.map replaceNanRec).filter (fun r => !(isCompleteExempt r)) ∧
      cdf = (df.map replaceNanRec).filter isCompleteExempt ∧
      (∀ r, r ∈ idf ↔ r ∈ df.map replaceNanRec ∧ isCompleteExempt r = false) ∧
      (∀ r, r ∈ cdf ↔ r ∈ df.map replaceNanRec ∧ isCompleteExempt r = true) ∧
      (∀ r, (df.map replaceNanRec).count r = idf.count r + cdf.count r) ∧
      split_inprogress_complete
          [sampleRec (some "Complete"), sampleRec (some "In Progress"),
           sampleRec (some "Exempt"), sampleRec (some "Needs Research")] =
        some ([sampleRec (some "In Progress"), sampleRec (some "Needs Research")],
              [sampleRec (some "Complete"), sampleRec (some "Exempt")]) := by
  have hsome : ∀ r ∈ df.map replaceNanRec, r.finOpsStatus.isSome := by
    intro r hr
    obtain ⟨r0, hr0, rfl⟩ := List.mem_map.mp hr
    obtain ⟨s, hs, h1, h2⟩ := h r0 hr0
    simp [replaceNanRec, replaceNan, hs, beq_iff_eq, h1, h2]
  refine ⟨(df.map replaceNanRec).filter (fun r => !(isCompleteExempt r)),
          (df.map replaceNanRec).filter isCompleteExempt, ?_, rfl, rfl, ?_, ?_, ?_, rfl⟩
  · unfold split_inprogress_complete
    rw [splitRows_eq _ [] [] hsome]
    simp
  · intro r; simp [List.mem_filter]
  · intro r; simp [List.mem_filter]
  · intro r
    have hperm : ((df.map replaceNanRec).filter (fun r => !(isCompleteExempt r)) ++
        (df.map replaceNanRec).filter isCompleteExempt).Perm (df.map replaceNanRec) := by
      refine (List.perm_append_comm).trans ?_
      exact List.filter_append_perm _ _
    have hcnt := hperm.count_eq r
    rw [List.count_append] at hcnt
    exact hcnt.symm

/-- Witness for C4's amended partition at the spec's 4-row scenario. -/
theorem c4_split_partitions_after_cleanup_witness :
    split_inprogress_complete
        [sampleRec (some "Complete"), sampleRec (some "In Progress"),
         sampleRec (some "Exempt"), sampleRec (some "Needs Research")] =
      some ([sampleRec (some "In Progress"), sampleRec (some "Needs Research")],
            [sampleRec (some "Complete"), sampleRec (some "Exempt")]) := by
  obtain ⟨idf, cdf, -, -, -, -, -, -, hscen⟩ :=
    c4_split_partitions_after_cleanup
      [sampleRec (some "Complete"), sampleRec (some "In Progress"),
       sampleRec (some "Exempt"), sampleRec (some "Needs Research")]
      (by intro r hr; fin_cases hr <;> exact ⟨_, rfl, by decide, by decide⟩)
  exact hscen


/-- Reading back a label just modified in place. -/
lemma dfGet_dfModify (df : DataFrame) (i : Nat) (f : TrackerRecord → TrackerRecord) :
    dfGet (dfModify df i f) i = (dfGet df i).map f := by
  induction df with
  | nil => rfl
  | cons p rest ih =>
    unfold dfGet dfModify
    unfold dfGet dfModify at ih
    simp only [List.map_cons, List.find?]
    by_cases hp : (p.1 == i) = true
    · rw [if_pos hp]
      simp only [hp]
      simp [hp]
    · rw [if_neg hp]
      simp only [Bool.of_not_eq_true hp]
      exact ih

lemma inprogressStep_eq (tracker s3i s3c s3ex : DataFrame) (i : Nat)
    (r' : TrackerRecord) (today : Date) (s : String)
    (hget : dfGet tracker i = some r') (hst : r'.finOpsStatus = some s) :
    inprogressStep today (tracker, s3i, s3c, s3ex) i =
      (if pyLower s == "complete" then
        some (dfModify tracker i (fun x => { x with dateOfSavings := some today }),
              dfDrop (dfSet s3i i r') i,
              dfSet s3c (dfLen s3c) { r' with dateOfSavings := some today }, s3ex)
      else if pyLower s == "exempt" then
        some (tracker, dfDrop (dfSet s3i i r') i, s3c,
              dfSet s3ex (dfLen s3ex) r')
      else if s == "DeleteMe" then
        some (tracker, dfDrop (dfSet s3i i r') i, s3c, s3ex)
      else
        some (tracker, dfSet s3i i r', s3c, s3ex)) := by
  unfold inprogressStep
  dsimp only
  rw [hget]
  dsimp only
  rw [hst]


lemma modify_inprogress_single (tracker s3i s3c s3ex : DataFrame) (i : Nat)
    (r : TrackerRecord) (today : Date) (s : String)
    (hr : dfGet tracker i = some r) (hs : r.finOpsStatus = some s) :
    modify_inprogress_tracker tracker [i] s3i s3c s3ex today =
      (if pyLower s == "complete" then
        some (dfModify (dfModify tracker i (stampToday today)) i
                (fun x => { x with dateOfSavings := some today }),
              dfDrop (dfSet s3i i (stampToday today r)) i,
              dfSet s3c (dfLen s3c)
                { stampToday today r with dateOfSavings := some today }, s3ex)
      else if pyLower s == "exempt" then
        some (dfModify tracker i (stampToday today),
              dfDrop (dfSet s3i i (stampToday today r)) i, s3c,
              dfSet s3ex (dfLen s3ex) (stampToday today r))
      else if s == "DeleteMe" then
        some (dfModify tracker i (stampToday today),
              dfDrop (dfSet s3i i (stampToday today r)) i, s3c, s3ex)
      else
        some (dfModify tracker i (stampToday today),
              dfSet s3i i (stampToday today r), s3c, s3ex)) := by
  have hstamp : stampEdits tracker [i] today = dfModify tracker i (stampToday today) := rfl
  have hget : dfGet (dfModify tracker i (stampToday today)) i =
      some (stampToday today r) := by
    rw [dfGet_dfModify, hr]; rfl
  have hs' : (stampToday today r).finOpsStatus = some s := hs
  unfold modify_inprogress_tracker
  rw [hstamp]
  unfold runSteps
  rw [inprogressStep_eq _ s3i s3c s3ex i (stampToday today r) today s hget hs']
  by_cases hc1 : (pyLower s == "complete") = true
  · rw [if_pos hc1]
    rfl
  · rw [if_neg hc1]
    by_cases hc2 : (pyLower s == "exempt") = true
    · rw [if_pos hc2]
      rfl
    · rw [if_neg hc2]
      by_cases hc3 : (s == "DeleteMe") = true
      · rw [if_pos hc3]
        rfl
      · rw [if_neg hc3]
        rfl


lemma completeStep_deleteme (ct s3c : DataFrame) (unw : List Nat) (i : Nat)
    (rc prc : TrackerRecord) (today : Date)
    (hr : dfGet ct i = some rc) (hs : rc.finOpsStatus = some "DeleteMe")
    (hp : dfGet s3c i = some prc) :
    ∃ s3c' unw', completeStep today (ct, s3c, unw) i =
      some (dfModify ct i (stampToday today), s3c', unw') ∧ ∀ p ∈ s3c', p.1 ≠ i := by
  have hget : dfGet (dfModify ct i (stampToday today)) i =
      some (stampToday today rc) := by
    rw [dfGet_dfModify, hr]; rfl
  have hst : (stampToday today rc).finOpsStatus = some "DeleteMe" := hs
  cases hlm : prc.finOpsLastModified with
  | none =>
    refine ⟨dfDrop (dfSet s3c i (stampToday today rc)) i, unw, ?_,
      fun p hp' => (mem_dfDrop.mp hp').2⟩
    unfold completeStep
    dsimp only
    rw [hget]
    dsimp only
    rw [hp]
    dsimp only
    rw [hlm]
    dsimp only
    rw [hst]
    rw [if_pos (by decide : ((some "DeleteMe" : Option String) == some "DeleteMe") = true)]
  | some pd =>
    by_cases hle : Date.le pd today = true
    · refine ⟨dfDrop (dfSet s3c i (stampToday today rc)) i, unw, ?_,
        fun p hp' => (mem_dfDrop.mp hp').2⟩
      unfold completeStep
      dsimp only
      rw [hget]
      dsimp only
      rw [hp]
      dsimp only
      rw [hlm]
      dsimp only
      rw [if_pos hle]
      dsimp only
      rw [hst]
      rw [if_pos (by decide : ((some "DeleteMe" : Option String) == some "DeleteMe") = true)]
    · refine ⟨dfDrop s3c i, unw ++ [i], ?_,
        fun p hp' => (mem_dfDrop.mp hp').2⟩
      unfold completeStep
      dsimp only
      rw [hget]
      dsimp only
      rw [hp]
      dsimp only
      rw [hlm]
      dsimp only
      rw [if_neg hle]
      dsimp only
      rw [hst]
      rw [if_pos (by decide : ((some "DeleteMe" : Option String) == some "DeleteMe") = true)]


/-- C3 (amended): a single InProgress edit whose new status compares
case-insensitively equal to "complete" stamps `DateOfSavings = today`, is
appended to the Complete partition and removed from InProgress; one equal
to "exempt" is appended to Exempt and removed from InProgress; the
`DeleteMe` sentinel, however, is matched case-sensitively (the exact
string `"DeleteMe"`), and such a row is removed from the partition
holding it — in the Complete partition unconditionally, regardless of any
timestamp conflict. -/
theorem c3_status_transitions
    (tracker s3i s3c s3ex ctracker s3cc : DataFrame) (i j : Nat)
    (r rc prc : TrackerRecord) (today : Date) (s : String)
    (hr : dfGet tracker i = some r) (hs : r.finOpsStatus = some s)
    (hrc : dfGet ctracker j = some rc) (hrcs : rc.finOpsStatus = some "DeleteMe")
    (hprc : dfGet s3cc j = some prc) :
    (pyLower s = "complete" → ∃ tr' s3i',
       modify_inprogress_tracker tracker [i] s3i s3c s3ex today =
         some (tr', s3i',
               dfSet s3c (dfLen s3c)
                 { stampToday today r with dateOfSavings := some today },
               s3ex) ∧ ∀ p ∈ s3i', p.1 ≠ i) ∧
    (pyLower s = "exempt" → ∃ tr' s3i',
       modify_inprogress_tracker tracker [i] s3i s3c s3ex today =
         some (tr', s3i', s3c, dfSet s3ex (dfLen s3ex) (stampToday today r)) ∧
         ∀ p ∈ s3i', p.1 ≠ i) ∧
    (s = "DeleteMe" → ∃ tr' s3i',
       modify_inprogress_tracker tracker [i] s3i s3c s3ex today =
         some (tr', s3i', s3c, s3ex) ∧ ∀ p ∈ s3i', p.1 ≠ i) ∧
    (∃ ct' s3c' unw, modify_complete_tracker ctracker [j] s3cc today =
       some (ct', s3c', unw) ∧ ∀ p ∈ s3c', p.1 ≠ j) := by
  have hsingle := modify_inprogress_single tracker s3i s3c s3ex i r today s hr hs
  refine ⟨fun hc => ?_, fun hc => ?_, fun hc => ?_, ?_⟩
  · rw [if_pos (beq_iff_eq.mpr hc)] at hsingle
    exact ⟨_, _, hsingle, fun p hp => (mem_dfDrop.mp hp).2⟩
  · rw [if_neg (by simp [hc] : ¬((pyLower s == "complete") = true)),
        if_pos (beq_iff_eq.mpr hc)] at hsingle
    exact ⟨_, _, hsingle, fun p hp => (mem_dfDrop.mp hp).2⟩
  · subst hc
    rw [if_neg (by decide : ¬((pyLower "DeleteMe" == "complete") = true)),
        if_neg (by decide : ¬((pyLower "DeleteMe" == "exempt") = true)),
        if_pos (by decide : (("DeleteMe" : String) == "DeleteMe") = true)] at hsingle
    exact ⟨_, _, hsingle, fun p hp => (mem_dfDrop.mp hp).2⟩
  · obtain ⟨s3c', unw', hstep, hdrop⟩ :=
      completeStep_deleteme ctracker s3cc [] j rc prc today hrc hrcs hprc
    have heq : modify_complete_tracker ctracker [j] s3cc today =
        some (dfModify ctracker j (stampToday today), s3c', unw') := by
      unfold modify_complete_tracker runSteps
      rw [hstep]
      rfl
    exact ⟨_, s3c', unw', heq, hdrop⟩

/-- Witness for C3's amended transitions: a "Complete" edit moves the row
into the Complete partition, and a "DeleteMe" edit in the Complete
partition drops the row. -/
theorem c3_status_transitions_witness :
    (∃ tr' s3i', modify_inprogress_tracker [(0, sampleRec (some "Complete"))] [0]
        [(0, persistedRow)] [] [] ⟨2026, 10, 14⟩ =
      some (tr', s3i',
            dfSet [] (dfLen ([] : DataFrame))
              { stampToday ⟨2026, 10, 14⟩ (sampleRec (some "Complete")) with
                  dateOfSavings := some ⟨2026, 10, 14⟩ },
            []) ∧ ∀ p ∈ s3i', p.1 ≠ 0) ∧
    (∃ ct' s3c' unw, modify_complete_tracker [(0, sampleRec (some "DeleteMe"))] [0]
        [(0, persistedRow)] ⟨2026, 10, 14⟩ = some (ct', s3c', unw) ∧
        ∀ p ∈ s3c', p.1 ≠ 0) :=
  have h := c3_status_transitions [(0, sampleRec (some "Complete"))]
      [(0, persistedRow)] [] [] [(0, sampleRec (some "DeleteMe"))]
      [(0, persistedRow)] 0 0 (sampleRec (some "Complete"))
      (sampleRec (some "DeleteMe")) persistedRow ⟨2026, 10, 14⟩ "Complete"
      rfl rfl rfl rfl rfl
  ⟨h.1 (by decide), h.2.2.2⟩


end CostOpt
